import Mathlib

/-!
# Verification of the InDesign-to-PDF conversion orchestration core

Shallow embedding, in Lean 4, of the conversion orchestration core of the
InDesign backend service: archive document lookup (`zipHandler.js`),
script generation and external-process handling (`indesignService.js`),
configuration resolution (`config.js`) and temp-file cleanup
(`fileCleanup.js`).  Effectful JavaScript is modelled by explicit
parameters for the outcomes of I/O operations (file-existence oracles,
process results) and by explicit effect logs for file writes/deletes;
string-returning JavaScript operations are modelled character-exactly.
-/

namespace InDesignProofs

/-! ## String operation models (JavaScript semantics) -/

/-- Is the first list an initial segment of the second? -/
def charsIsPrefixOf : List Char → List Char → Bool
  | [], _ => true
  | _ :: _, [] => false
  | a :: as, b :: bs => a == b && charsIsPrefixOf as bs

/-- Model of JavaScript `String.prototype.includes` at the
character-list level: does `pat` occur contiguously inside the list? -/
def charsContains (pat : List Char) : List Char → Bool
  | [] => pat.isEmpty
  | c :: cs => charsIsPrefixOf pat (c :: cs) || charsContains pat cs

/-- Model of JavaScript `s.includes(pat)`. -/
def strContainsB (s pat : String) : Bool := charsContains pat.data s.data

/-- Model of JavaScript `s.startsWith(pat)`. -/
def strStartsWith (s pat : String) : Bool := charsIsPrefixOf pat.data s.data

/-- Model of JavaScript `s.split("\n")`: cut the character list at every
newline; a list with no newline yields one field, so `""` yields `[""]`
exactly as in JavaScript. -/
def charsSplitNL : List Char → List (List Char)
  | [] => [[]]
  | c :: cs =>
    if c = '\n' then [] :: charsSplitNL cs
    else
      match charsSplitNL cs with
      | [] => [[c]]
      | f :: fs => (c :: f) :: fs

/-- Model of JavaScript `arr.join("\n")`. -/
def charsJoinNL : List (List Char) → List Char
  | [] => []
  | [f] => f
  | f :: fs => f ++ '\n' :: charsJoinNL fs

/-- The whitespace set of JavaScript `String.prototype.trim` (ASCII part;
the streams the service trims are ASCII diagnostics). -/
def jsWhitespace (c : Char) : Bool :=
  c = ' ' || c = '\t' || c = '\n' || c = '\r' || c = '\x0b' || c = '\x0c'

/-- Model of JavaScript `s.trim()`: strip whitespace from both ends. -/
def charsTrim (cs : List Char) : List Char :=
  ((cs.dropWhile jsWhitespace).reverse.dropWhile jsWhitespace).reverse

/-- Model of JavaScript `s.toLowerCase()` (ASCII range; the extensions
compared against are ASCII). -/
def strToLower (s : String) : String := ⟨s.data.map Char.toLower⟩

/-- Model of JavaScript `s.replace(/\\/g, "/")`: every backslash becomes a
forward slash. -/
def normalizeSlashes (s : String) : String :=
  ⟨s.data.map fun c => if c = '\\' then '/' else c⟩

/-- Replace the first occurrence of `pat` by `repl` in a character list:
model of JavaScript `s.replace(pat, repl)` with a string pattern, which
replaces only the first occurrence. -/
def charsReplaceFirst (pat repl : List Char) : List Char → List Char
  | [] => []
  | c :: cs =>
    if charsIsPrefixOf pat (c :: cs) then repl ++ (c :: cs).drop pat.length
    else c :: charsReplaceFirst pat repl cs

/-- Model of JavaScript `s.replace(pat, repl)` with a string pattern. -/
def strReplaceFirst (s pat repl : String) : String :=
  ⟨charsReplaceFirst pat.data repl.data s.data⟩

/-! ## Path operation models (Node `path`, POSIX flavour) -/

/-- Model of Node `path.join(a, b)` for the simple two-component case used
by the service (no `..`/`.` normalization arises on the inputs it joins). -/
def pathJoin (a b : String) : String := a ++ "/" ++ b

/-- The suffix of `cs` starting at its last `'.'`, if any dot occurs. -/
def lastDotSuffix : List Char → Option (List Char)
  | [] => none
  | c :: cs =>
    match lastDotSuffix cs with
    | some suf => some suf
    | none => if c = '.' then some (c :: cs) else none

/-- Model of Node `path.extname(name)` on a base name: the substring from
the last `'.'` to the end, and `""` when there is no dot or the only dot
starts the name (`.hidden` has no extension). -/
def extname (name : String) : String :=
  match name.data with
  | [] => ""
  | _ :: rest =>
    match lastDotSuffix rest with
    | some suf => ⟨suf⟩
    | none => ""

/-! ## `zipHandler.js`: `findInDesignFile` and `extractZipAndFindInDesignFile` -/

/-- A directory tree as produced by extraction: what
`fs.readdir(dir, { withFileTypes: true })` exposes at each level. -/
inductive FSEntry where
  | file (name : String)
  | dir (name : String) (entries : List FSEntry)

/-- The directory-skip test of `findInDesignFile` (zipHandler.js line 50):
`entry.name.startsWith('.') || entry.name === '__MACOSX'`. -/
def skipDir (name : String) : Bool :=
  strStartsWith name "." || name == "__MACOSX"

/-- The file-extension test of `findInDesignFile` (zipHandler.js lines
58-59): `path.extname(entry.name).toLowerCase()` equals `.indd` or
`.idml`. -/
def isInDesignExt (name : String) : Bool :=
  let ext := strToLower (extname name)
  ext == ".indd" || ext == ".idml"

/-- `findInDesignFile(dirPath)` of zipHandler.js, over the entry list of
`dirPath`: walks the entries in order; recurses into non-skipped
directories, returning the first hit of the recursion if any; returns the
joined path of the first file whose extension matches. -/
def findInDesignFile : String → List FSEntry → Option String
  | _, [] => none
  | dirPath, .dir name sub :: rest =>
    if skipDir name then findInDesignFile dirPath rest
    else
      match findInDesignFile (pathJoin dirPath name) sub with
      | some found => some found
      | none => findInDesignFile dirPath rest
  | dirPath, .file name :: rest =>
    if isInDesignExt name then some (pathJoin dirPath name)
    else findInDesignFile dirPath rest

/-- Modelled from the spec (§4.1, §8): the list of candidate document
paths in depth-first traversal order, never descending into skipped
directories.  Used only to compare against `findInDesignFile`. -/
def specDFSCandidates : String → List FSEntry → List String
  | _, [] => []
  | dirPath, .dir name sub :: rest =>
    if skipDir name then specDFSCandidates dirPath rest
    else specDFSCandidates (pathJoin dirPath name) sub
      ++ specDFSCandidates dirPath rest
  | dirPath, .file name :: rest =>
    (if isInDesignExt name then [pathJoin dirPath name] else [])
      ++ specDFSCandidates dirPath rest

/-- `extractZipAndFindInDesignFile(zipPath, extractPath)` of zipHandler.js.
The zip-library extraction is an external call; its outcome is a
parameter: either an error message (a throw from `AdmZip`) or the entry
tree deposited under `extractPath`.  The `catch` clause re-throws the
no-document error unchanged and wraps every other error with the
extraction-phase prefix. -/
def extractZipAndFindInDesignFile (zipResult : Except String (List FSEntry))
    (extractPath : String) : Except String (String × String) :=
  let attempt : Except String (String × String) :=
    match zipResult with
    | .error e => .error e
    | .ok entries =>
      match findInDesignFile extractPath entries with
      | some indesignFile => .ok (indesignFile, extractPath)
      | none => .error "No InDesign file (.indd or .idml) found in the zip"
  match attempt with
  | .ok r => .ok r
  | .error msg =>
    if strContainsB msg "No InDesign file" then .error msg
    else .error ("Failed to extract zip file: " ++ msg)

/-! ## `config.js`: configuration resolution -/

/-- `config.indesignAppPath` (config.js line 12):
`process.env.INDESIGN_APP_PATH || null` — the environment variable when
present and truthy, so an empty-string value also falls through to
`null`. -/
def configIndesignAppPath (envVar : Option String) : Option String :=
  match envVar with
  | some s => if s = "" then none else some s
  | none => none

/-! ## `indesignService.js`: script generation -/

/-- Host platforms as reported by `os.platform()`; every platform other
than `darwin` and `win32` takes the unsupported branch of the service. -/
inductive Platform where
  | darwin
  | win32
  | other
deriving Repr, DecidableEq

/-- Text of the ExtendScript template (indesignService.js lines 59-71) up
to the first substituted path. -/
def scriptPart1 : String :=
  "\n#target indesign\n\ntry \x7b\n  $.writeln(\"Starting InDesign conversion script...\");\n\n"
  ++ "  // Suppress all dialogs and user interaction\n"
  ++ "  app.scriptPreferences.userInteractionLevel = UserInteractionLevels.NEVER_INTERACT;\n\n"
  ++ "  $.writeln(\"Opening InDesign document...\");\n\n"
  ++ "  // Open the InDesign document\n  var sourceFile = File(\""

/-- Text of the ExtendScript template (indesignService.js lines 71-86)
between the two substituted paths. -/
def scriptPart2 : String :=
  "\");\n  if (!sourceFile.exists) \x7b\n"
  ++ "    throw new Error(\"Source file not found: \" + sourceFile.fsName);\n  \x7d\n\n"
  ++ "  var doc = app.open(sourceFile, false); // false = don\x27t show dialogs\n\n"
  ++ "  $.writeln(\"Document opened successfully. Pages: \" + doc.pages.length);\n\n"
  ++ "  // Check for missing fonts (don\x27t fail, just warn)\n"
  ++ "  if (doc.fonts.length > 0) \x7b\n"
  ++ "    $.writeln(\"Document has \" + doc.fonts.length + \" fonts\");\n  \x7d\n\n"
  ++ "  // Export to PDF\n  var pdfFile = File(\""

/-- Text of the ExtendScript template (indesignService.js lines 86-133)
after the second substituted path. -/
def scriptPart3 : String :=
  "\");\n\n  $.writeln(\"Configuring PDF export preferences...\");\n\n"
  ++ "  // Set PDF export preset (using default High Quality Print preset)\n"
  ++ "  app.pdfExportPreferences.pageRange = PageRange.ALL_PAGES;\n\n"
  ++ "  $.writeln(\"Starting PDF export...\");\n\n"
  ++ "  // Export the document\n  doc.exportFile(ExportFormat.PDF_TYPE, pdfFile, false);\n\n"
  ++ "  $.writeln(\"PDF export completed successfully\");\n\n"
  ++ "  // Close the document without saving\n  doc.close(SaveOptions.NO);\n\n"
  ++ "  $.writeln(\"Document closed. Conversion complete.\");\n\n"
  ++ "  // Quit InDesign to ensure process terminates\n  app.quit();\n\n"
  ++ "  // Return success message\n  \"SUCCESS\";\n\n"
  ++ "\x7d catch (err) \x7b\n  $.writeln(\"ERROR occurred: \" + err.message);\n\n"
  ++ "  // Close document if it\x27s open\n"
  ++ "  if (typeof doc !== \x27undefined\x27) \x7b\n    try \x7b\n"
  ++ "      $.writeln(\"Attempting to close document...\");\n"
  ++ "      doc.close(SaveOptions.NO);\n    \x7d catch (e) \x7b\n"
  ++ "      $.writeln(\"Could not close document: \" + e.message);\n    \x7d\n  \x7d\n\n"
  ++ "  // Try to quit InDesign\n  try \x7b\n    app.quit();\n  \x7d catch (e) \x7b\x7d\n\n"
  ++ "  // Write error to stderr\n  $.writeln(\"ERROR: \" + err.message);\n  throw err;\n\x7d\n"

/-- The `script` template literal of `executeInDesignScript`
(indesignService.js lines 59-133): the template text with
`indesignFilePath.replace(/\\/g, "/")` and
`pdfOutputPath.replace(/\\/g, "/")` substituted at their two holes. -/
def generatedScript (indesignFilePath pdfOutputPath : String) : String :=
  scriptPart1 ++ normalizeSlashes indesignFilePath ++ scriptPart2
    ++ normalizeSlashes pdfOutputPath ++ scriptPart3

/-! ## `indesignService.js`: process invocation (`runInDesignWithScript`) -/

/-- The hardcoded per-platform default application paths
(indesignService.js lines 163-175); `none` for every other platform,
where the promise is rejected as unsupported. -/
def defaultIndesignPath : Platform → Option String
  | .darwin =>
    some "/Applications/Adobe InDesign 2024/Adobe InDesign 2024.app/Contents/MacOS/Adobe InDesign 2024"
  | .win32 => some "C:\\Program Files\\Adobe\\Adobe InDesign 2024\\InDesign.exe"
  | .other => none

/-- The auxiliary AppleScript path on macOS (indesignService.js line 181):
`scriptPath.replace(".jsx", ".scpt")`. -/
def appleScriptPathOf (scriptPath : String) : String :=
  strReplaceFirst scriptPath ".jsx" ".scpt"

/-- The AppleScript wrapper text written on macOS (indesignService.js
lines 182-186); it targets a hardcoded application name. -/
def appleScriptContent (scriptPath : String) : String :=
  "tell application \"Adobe InDesign 2026\"\n\tactivate\n\tset scriptFile to POSIX file \""
    ++ scriptPath ++ "\"\n\tdo script scriptFile language javascript\nend tell"

/-- The command a conversion attempt hands to `spawn`. -/
structure SpawnCall where
  binary : String
  args : List String
deriving Repr, DecidableEq

/-- The binary/argument resolution of `runInDesignWithScript`
(indesignService.js lines 158-198): start from
`config.indesignAppPath`; when unset fall back to the per-platform
default, rejecting unsupported platforms; then on macOS overwrite the
binary with `osascript` pointed at the AppleScript wrapper, and on
Windows pass the script path via `-ScriptPath`. -/
def resolveSpawn (configured : Option String) (platform : Platform)
    (scriptPath : String) : Except String SpawnCall :=
  let resolved : Option String :=
    match configured with
    | some p => some p
    | none => defaultIndesignPath platform
  match resolved with
  | none => .error "Unsupported platform for Adobe InDesign automation"
  | some indesignPath =>
    match platform with
    | .darwin => .ok { binary := "osascript", args := [appleScriptPathOf scriptPath] }
    | .win32 => .ok { binary := indesignPath, args := ["-ScriptPath", scriptPath] }
    | .other => .error "Unsupported platform for Adobe InDesign automation"

/-- How one spawned process behaves against the two timers of
`runInDesignWithScript`.  `sigtermDelivered` records whether the
`kill("SIGTERM")` call succeeds in sending its signal — Node sets
`childProcess.killed` exactly then (it does not mean the process has
exited). -/
structure ProcTimeline where
  /-- the `close` event fires before the 5-minute timer does -/
  closedBefore5min : Bool
  /-- `kill("SIGTERM")` successfully sends its signal -/
  sigtermDelivered : Bool
  /-- the process exits within the 5-second grace period after SIGTERM -/
  exitedWithinGrace : Bool
deriving Repr, DecidableEq

/-- What the timeout path does. -/
structure TimeoutActions where
  rejectedTimeout : Bool
  sentSIGTERM : Bool
  sentSIGKILL : Bool
deriving Repr, DecidableEq

/-- The rejection message of the 5-minute timer. -/
def timeoutMessage : String :=
  "InDesign process timed out after 5 minutes. This may indicate missing fonts, missing links, or InDesign waiting for user input."

/-- The 5-minute timer callback of `runInDesignWithScript`
(indesignService.js lines 219-234): when the process has not resolved,
send SIGTERM and reject; after the 5-second inner timer, send SIGKILL
only if `childProcess.killed` is still false — and `killed` is true as
soon as the SIGTERM signal was delivered, whether or not the process
exited. -/
def timeoutHandler (t : ProcTimeline) : TimeoutActions :=
  if t.closedBefore5min then
    { rejectedTimeout := false, sentSIGTERM := false, sentSIGKILL := false }
  else
    let killedFlag := t.sigtermDelivered
    { rejectedTimeout := true, sentSIGTERM := true, sentSIGKILL := !killedFlag }

/-! ## `indesignService.js`: outcome classification (`close` handler) -/

/-- The noise test of the stderr filter (indesignService.js lines
265-273): a line is dropped when it contains any of four known-benign
macOS object-runtime warnings. -/
def noiseLine (line : String) : Bool :=
  strContainsB line "Class AdobeSimpleURLSession"
    || strContainsB line "objc["
    || strContainsB line "is implemented in both"
    || strContainsB line "One of the duplicates must be removed"

/-- `stderr.split("\n").filter(...).join("\n").trim()` of the `close`
handler (indesignService.js lines 265-275). -/
def filterStderr (stderr : String) : String :=
  ⟨charsTrim (charsJoinNL
    (((((charsSplitNL stderr.data).map (fun f => (⟨f⟩ : String))).filter
      (fun line => !noiseLine line)).map String.data)))⟩

/-- The outcome classification of the `close` handler (indesignService.js
lines 277-289): reject when the exit code is nonzero or the filtered
stderr contains `ERROR:`, with the message falling back through
`filteredStderr || stdout || Exit code N`; otherwise resolve with the
accumulated stdout. -/
def classifyClose (code : Int) (stdout stderr : String) : Except String String :=
  let filteredStderr := filterStderr stderr
  if code != 0 || strContainsB filteredStderr "ERROR:" then
    .error ("InDesign script execution failed: "
      ++ (if filteredStderr != "" then filteredStderr
          else if stdout != "" then stdout
          else "Exit code " ++ toString code))
  else
    .ok stdout

/-! ## `indesignService.js`: temp-file effects and orchestration -/

/-- The log of temporary script files a conversion attempt writes and
deletes. -/
structure Effects where
  written : List String
  deleted : List String
deriving Repr, DecidableEq

/-- The temp-file effects and result of `runInDesignWithScript`
(indesignService.js lines 155-292): on macOS the AppleScript wrapper is
written before spawning; no platform branch deletes anything.  The
spawned process is external, so its awaited outcome — launch error,
timeout rejection, or the `close` classification — is the parameter
`procResult`. -/
def runInDesignWithScriptFx (configured : Option String) (platform : Platform)
    (scriptPath : String) (procResult : Except String String) :
    Effects × Except String String :=
  match resolveSpawn configured platform scriptPath with
  | .error e => ({ written := [], deleted := [] }, .error e)
  | .ok _ =>
    match platform with
    | .darwin => ({ written := [appleScriptPathOf scriptPath], deleted := [] }, procResult)
    | _ => ({ written := [], deleted := [] }, procResult)

/-- The temp-file effects and result of `executeInDesignScript`
(indesignService.js lines 51-149): the generated `.jsx` script is written
first; after the run, `fs.unlink(scriptPath).catch(() => {})` executes on
the success path (line 143) and on the error path (line 146) alike, so
the `.jsx` is deleted in both cases and the run's outcome is passed
through. -/
def executeInDesignScriptFx (configured : Option String) (platform : Platform)
    (scriptPath : String) (procResult : Except String String) :
    Effects × Except String String :=
  let runStep := runInDesignWithScriptFx configured platform scriptPath procResult
  ({ written := scriptPath :: runStep.1.written,
     deleted := runStep.1.deleted ++ [scriptPath] }, runStep.2)

/-- Model of Node `path.basename(p)` (POSIX flavour): the component after
the last `/`; the service only applies it to file paths without a
trailing slash. -/
def basenameOf (p : String) : String :=
  match (p.data.splitOn '/').getLast? with
  | some b => ⟨b⟩
  | none => p

/-- Model of Node `path.basename(p, ext)` as used at indesignService.js
lines 22-25, with `ext = path.extname(p)`: the base name with the
extension suffix removed, unless the extension is empty or equals the
whole base name. -/
def basenameNoExt (p : String) : String :=
  let b := basenameOf p
  let ext := extname b
  if ext != "" && b != ext then ⟨b.data.take (b.data.length - ext.data.length)⟩ else b

/-- The derived output path (indesignService.js line 26):
`path.join(outputDir, basename + ".pdf")`. -/
def pdfPathOf (indesignFilePath outputDir : String) : String :=
  pathJoin outputDir (basenameNoExt indesignFilePath ++ ".pdf")

/-- The outcomes of the effectful steps of one `convertInDesignToPDF`
call: the two `fs.access` existence checks and the awaited external
process result.  (`fs.mkdir` with `recursive: true` succeeds on the
writable scratch directories the service uses.) -/
structure ConvertEnv where
  /-- `checkFileExists(indesignFilePath)` at line 16 -/
  inputExists : Bool
  /-- the awaited outcome of the spawned external process -/
  procResult : Except String String
  /-- `checkFileExists(pdfPath)` at line 35, after the script run -/
  pdfExistsAfter : Bool

/-- `convertInDesignToPDF(indesignFilePath, outputDir)` of
indesignService.js (lines 13-44): check the input exists, derive the PDF
path, run the script, re-check that the PDF now exists, and wrap every
thrown error with the conversion-phase prefix. -/
def convertInDesignToPDF (env : ConvertEnv) (configured : Option String)
    (platform : Platform) (scriptPath indesignFilePath outputDir : String) :
    Except String String :=
  let attempt : Except String String :=
    if !env.inputExists then
      .error ("InDesign file not found: " ++ indesignFilePath)
    else
      let pdfPath := pdfPathOf indesignFilePath outputDir
      match (executeInDesignScriptFx configured platform scriptPath env.procResult).2 with
      | .error e => .error e
      | .ok _ =>
        if env.pdfExistsAfter then .ok pdfPath
        else .error "PDF was not generated successfully"
  match attempt with
  | .ok p => .ok p
  | .error msg => .error ("Failed to convert InDesign to PDF: " ++ msg)

/-! ## `fileCleanup.js`: `deleteFile` -/

/-- What `fs.stat` distinguishes for `deleteFile`. -/
inductive FileKind where
  | file
  | directory
deriving Repr, DecidableEq

/-- The filesystem as `deleteFile` sees it: the existing paths with their
kinds. -/
def FSState := List (String × FileKind)

/-- Model of `fs.stat(p)`: the kind when the path exists, else the ENOENT
throw. -/
def statKind (fsState : FSState) (p : String) : Option FileKind :=
  List.lookup p fsState

/-- The removal a successful `deleteFile` performs: `fs.unlink` removes
the one file; `fs.rm(..., recursive: true, force: true)` removes the
directory and everything under it. -/
def removePath (fsState : FSState) (p : String) : FileKind → FSState
  | .file => List.filter (fun e => e.1 != p) fsState
  | .directory =>
    List.filter (fun e => !(e.1 == p || strStartsWith e.1 (p ++ "/"))) fsState

/-- `deleteFile(targetPath)` of fileCleanup.js (lines 342-357): stat the
path and remove it by kind; the catch clause ignores ENOENT silently and
merely logs any other error, so the function never re-throws — modelled
by always returning `.ok`. -/
def deleteFile (fsState : FSState) (p : String) : Except String FSState :=
  match statKind fsState p with
  | some k => .ok (removePath fsState p k)
  | none => .ok fsState

/-! ## Helper lemmas -/

end InDesignProofs

namespace InDesignProofs

/-- C1 counterexample: with exit code 0, stdout `"ERROR: export failed"`
and empty stderr, the accumulated stdout contains the literal marker
`ERROR:`, yet the `close` handler resolves the run as success — the
classification never consults stdout for the marker, so the claim is
false at this input. -/
theorem claim1_stdout_marker_counterexample :
    strContainsB "ERROR: export failed" "ERROR:" = true ∧
    classifyClose 0 "ERROR: export failed" "" = .ok "ERROR: export failed" := by
  exact ⟨rfl, rfl⟩

/-- C1 amended: a terminated run is classified as success exactly when
the exit code is zero and the noise-filtered stderr does not contain the
literal marker `ERROR:`; the stdout text plays no role in the
classification. -/
theorem claim1_success_classification (code : Int) (stdout stderr : String) :
    (classifyClose code stdout stderr).isOk = true ↔
      (code = 0 ∧ strContainsB (filterStderr stderr) "ERROR:" = false) := by
  simp only [classifyClose]
  split
  · rename_i h
    simp only [Except.isOk, Except.toBool, Bool.false_eq_true, false_iff]
    rcases Bool.or_eq_true_iff.mp h with h1 | h2
    · intro hc
      rw [hc.1] at h1
      simp at h1
    · intro hc
      rw [hc.2] at h2
      cases h2
  · rename_i h
    simp only [Except.isOk, Except.toBool, true_iff]
    constructor
    · by_contra hc
      exact h (Bool.or_eq_true_iff.mpr (Or.inl (bne_iff_ne.mpr hc)))
    · by_contra hb
      exact h (Bool.or_eq_true_iff.mpr (Or.inr (by revert hb; cases strContainsB (filterStderr stderr) "ERROR:" <;> simp)))

end InDesignProofs

namespace InDesignProofs

/-- C2: whenever `convertInDesignToPDF` returns successfully, the
post-run existence check of the derived PDF path had succeeded and the
returned path is exactly that checked path; and whenever the external
process reported success but the PDF is absent, the call fails with the
`PDF was not generated successfully` error (under the conversion-phase
prefix), never returning success for a missing artifact. -/
theorem claim2_artifact_verified (env : ConvertEnv) (configured : Option String)
    (platform : Platform) (scriptPath indesignFilePath outputDir : String) :
    (∀ pdf,
      convertInDesignToPDF env configured platform scriptPath indesignFilePath outputDir
        = .ok pdf →
      env.pdfExistsAfter = true ∧ pdf = pdfPathOf indesignFilePath outputDir) ∧
    (env.inputExists = true →
      (executeInDesignScriptFx configured platform scriptPath env.procResult).2.isOk = true →
      env.pdfExistsAfter = false →
      convertInDesignToPDF env configured platform scriptPath indesignFilePath outputDir
        = .error "Failed to convert InDesign to PDF: PDF was not generated successfully") := by
  constructor
  · intro pdf hok
    simp only [convertInDesignToPDF] at hok
    split at hok
    · rename_i p hp
      split at hp
      · cases hp
      · split at hp
        · cases hp
        · split at hp
          · cases hok
            cases hp
            rename_i hpdf
            exact ⟨hpdf, rfl⟩
          · cases hp
    · cases hok
  · intro hin hexec hpdf
    simp only [convertInDesignToPDF, hin, Bool.not_true, Bool.false_eq_true, if_false]
    cases hrun : (executeInDesignScriptFx configured platform scriptPath env.procResult).2 with
    | error e =>
      rw [hrun] at hexec
      cases hexec
    | ok out =>
      simp [hpdf]

end InDesignProofs

namespace InDesignProofs

/-- C3: the code as written diverges from the claim at the failing input
"process never reaches a terminal state and the SIGTERM signal is
delivered": the 5-minute timer does reject with the timeout error and
send SIGTERM, but the 5-second escalation tests `childProcess.killed` —
already true once SIGTERM was delivered — so SIGKILL is never sent even
though the process has not exited within the grace period. -/
theorem claim3_sigkill_never_sent :
    timeoutHandler
      { closedBefore5min := false, sigtermDelivered := true, exitedWithinGrace := false }
      = { rejectedTimeout := true, sentSIGTERM := true, sentSIGKILL := false } := rfl

/-- C4 counterexample: on macOS, a successful conversion attempt writes
both the `.jsx` script and the `.scpt` AppleScript wrapper, but only the
`.jsx` is ever deleted — the wrapper is not on the deletion list, so the
claim that every written temp script file is deleted is false at this
input. -/
theorem claim4_wrapper_leak_counterexample :
    "/tmp/indesign_export_1.scpt"
        ∈ (executeInDesignScriptFx none .darwin "/tmp/indesign_export_1.jsx"
            (.ok "out")).1.written ∧
    "/tmp/indesign_export_1.scpt"
        ∉ (executeInDesignScriptFx none .darwin "/tmp/indesign_export_1.jsx"
            (.ok "out")).1.deleted := by
  constructor
  · decide
  · decide

/-- C4 amended: for every conversion attempt, on every platform and for
every process outcome (success or failure), the deletion list is exactly
the generated ExtendScript file — it is always deleted, while the macOS
AppleScript wrapper, although written, is never deleted. -/
theorem claim4_jsx_always_deleted (configured : Option String) (platform : Platform)
    (scriptPath : String) (procResult : Except String String) :
    (executeInDesignScriptFx configured platform scriptPath procResult).1.deleted
      = [scriptPath] ∧
    scriptPath ∈ (executeInDesignScriptFx configured platform scriptPath procResult).1.written := by
  simp only [executeInDesignScriptFx, runInDesignWithScriptFx]
  cases h : resolveSpawn configured platform scriptPath with
  | error e => simp
  | ok call => cases platform <;> simp

/-- C7 counterexample: on macOS with `INDESIGN_APP_PATH` configured to a
custom binary, the spawned binary is `osascript`, not the configured
path — the configured setting is not what is invoked. -/
theorem claim7_darwin_counterexample :
    resolveSpawn (some "/custom/indesign") .darwin "/tmp/s.jsx"
      = .ok { binary := "osascript", args := ["/tmp/s.scpt"] } ∧
    "osascript" ≠ "/custom/indesign" := by
  exact ⟨rfl, by decide⟩

/-- C7 amended: on Windows the spawned binary is the configured path when
set and the hardcoded default otherwise; on macOS the spawned binary is
always the `osascript` scripting host pointed at the generated
AppleScript wrapper, regardless of the configured setting. -/
theorem claim7_binary_resolution (configured : Option String) (scriptPath : String) :
    resolveSpawn configured .win32 scriptPath
      = .ok { binary := configured.getD
                "C:\\Program Files\\Adobe\\Adobe InDesign 2024\\InDesign.exe",
              args := ["-ScriptPath", scriptPath] } ∧
    resolveSpawn configured .darwin scriptPath
      = .ok { binary := "osascript", args := [appleScriptPathOf scriptPath] } := by
  cases configured <;> exact ⟨rfl, rfl⟩

end InDesignProofs

namespace InDesignProofs

theorem findInDesignFile_eq_head (d : String) (es : List FSEntry) :
    findInDesignFile d es = (specDFSCandidates d es).head? := by
  induction d, es using findInDesignFile.induct with
  | case1 d => simp [findInDesignFile, specDFSCandidates]
  | case2 d name sub rest hskip ih =>
    simp only [findInDesignFile, specDFSCandidates, hskip, if_true, ih]
  | case3 d name sub rest hskip found hsub ihsub =>
    rw [hsub] at ihsub
    simp only [findInDesignFile, specDFSCandidates, hskip, if_false, hsub]
    cases hspec : specDFSCandidates (pathJoin d name) sub with
    | nil => rw [hspec] at ihsub; cases ihsub
    | cons a l =>
      rw [hspec] at ihsub
      simp only [List.head?] at ihsub
      cases ihsub
      simp
  | case4 d name sub rest hskip hsub ihsub ihrest =>
    rw [hsub] at ihsub
    have hnil : specDFSCandidates (pathJoin d name) sub = [] := by
      cases hspec : specDFSCandidates (pathJoin d name) sub with
      | nil => rfl
      | cons a l => rw [hspec] at ihsub; cases ihsub
    simp only [findInDesignFile, specDFSCandidates, hskip, if_false, hsub, hnil,
      List.nil_append, ihrest]
    simp
  | case5 d name rest hfile =>
    simp only [findInDesignFile, specDFSCandidates, hfile, if_true]
    simp
  | case6 d name rest hfile ihrest =>
    simp only [findInDesignFile, specDFSCandidates, hfile, if_false, List.nil_append, ihrest]
    simp

end InDesignProofs

namespace InDesignProofs

/-- C5: `findInDesignFile` returns exactly the head of the list of
candidate files in depth-first traversal order (which skips dot-prefixed
and `__MACOSX` directories and keeps files with a `.indd`/`.idml`
extension); and on a tree with no candidate, extraction fails with an
error whose message contains `No InDesign file`. -/
theorem claim5_first_dfs_match (d : String) (es : List FSEntry) (ep : String)
    (tree : List FSEntry) (hnone : findInDesignFile ep tree = none) :
    findInDesignFile d es = (specDFSCandidates d es).head? ∧
    ∃ msg, extractZipAndFindInDesignFile (.ok tree) ep = .error msg ∧
      strContainsB msg "No InDesign file" = true := by
  refine ⟨findInDesignFile_eq_head d es,
    "No InDesign file (.indd or .idml) found in the zip", ?_, rfl⟩
  simp only [extractZipAndFindInDesignFile, hnone]
  rw [if_pos]
  rfl

/-- C6: the generated automation script is a pure function of the input
and output paths — equal path pairs give byte-identical script text — and
the backslash character never occurs in the substituted (slash-normalized)
path portions of the script. -/
theorem claim6_script_pure_and_slashed :
    (∀ p₁ q₁ p₂ q₂ : String, p₁ = p₂ → q₁ = q₂ →
      generatedScript p₁ q₁ = generatedScript p₂ q₂) ∧
    (∀ p : String, ('\\' : Char) ∉ (normalizeSlashes p).data) := by
  constructor
  · intro p₁ q₁ p₂ q₂ hp hq
    rw [hp, hq]
  · intro p
    simp only [normalizeSlashes, List.mem_map, not_exists]
    rintro a ⟨ha, hfa⟩
    by_cases h : a = '\\'
    · rw [if_pos h] at hfa
      cases hfa
    · rw [if_neg h] at hfa
      exact h hfa

/-- C9: `deleteFile` is idempotent with respect to absent targets — on a
path with no filesystem entry it completes without raising (returns `.ok`
with the state unchanged), and so does a second invocation in sequence. -/
theorem claim9_delete_absent_idempotent (fsState : FSState) (p : String)
    (habsent : statKind fsState p = none) :
    deleteFile fsState p = .ok fsState ∧
    ((deleteFile fsState p).bind fun s => deleteFile s p) = .ok fsState := by
  have h1 : deleteFile fsState p = .ok fsState := by
    simp only [deleteFile, habsent]
  exact ⟨h1, by simp only [h1, Except.bind, h1]⟩

/-- C10: the document-extension test is case-insensitive — any file name
whose extension lowercases (character-wise) to `.indd` or `.idml` passes
`isInDesignExt`, and a directory scan finds such a file. -/
theorem claim10_case_insensitive_ext (name d : String) (rest : List FSEntry)
    (hcap : strToLower (extname name) = ".indd" ∨ strToLower (extname name) = ".idml") :
    isInDesignExt name = true ∧
    findInDesignFile d (.file name :: rest) = some (pathJoin d name) := by
  have hext : isInDesignExt name = true := by
    rcases hcap with h | h <;> simp [isInDesignExt, h]
  exact ⟨hext, by simp [findInDesignFile, hext]⟩

end InDesignProofs

namespace InDesignProofs

end InDesignProofs

namespace InDesignProofs

/-- Witness for C1 at a concrete input: exit code 0 with clean streams is
classified as success. -/
theorem claim1_success_classification_witness :
    (classifyClose 0 "done" "").isOk = true :=
  (claim1_success_classification 0 "done" "").mpr ⟨rfl, rfl⟩

/-- Witness for C2 at a concrete input: a successful conversion of
`/in/doc.indd` into `/out` returns the verified `/out/doc.pdf`. -/
theorem claim2_artifact_verified_witness :
    (⟨true, .ok "s", true⟩ : ConvertEnv).pdfExistsAfter = true ∧
    "/out/doc.pdf" = pdfPathOf "/in/doc.indd" "/out" :=
  (claim2_artifact_verified ⟨true, .ok "s", true⟩ none .win32 "/t.jsx" "/in/doc.indd"
    "/out").1 "/out/doc.pdf" rfl

/-- Witness for C5 at a concrete input: a single-file tree and an empty
tree. -/
theorem claim5_first_dfs_match_witness :
    findInDesignFile "/x" [.file "c.indd"]
      = (specDFSCandidates "/x" [.file "c.indd"]).head? ∧
    ∃ msg, extractZipAndFindInDesignFile (.ok []) "/ex" = .error msg ∧
      strContainsB msg "No InDesign file" = true :=
  claim5_first_dfs_match "/x" [.file "c.indd"] "/ex" [] (by simp [findInDesignFile])

/-- Witness for C6 at a concrete input with backslashes in the path. -/
theorem claim6_script_pure_and_slashed_witness :
    generatedScript "C:\\in.indd" "/o/out.pdf" = generatedScript "C:\\in.indd" "/o/out.pdf" ∧
    ('\\' : Char) ∉ (normalizeSlashes "C:\\in.indd").data :=
  ⟨claim6_script_pure_and_slashed.1 _ _ _ _ rfl rfl,
    claim6_script_pure_and_slashed.2 _⟩

/-- Witness for C9 at a concrete input: the empty filesystem and a path
that does not exist in it. -/
theorem claim9_delete_absent_idempotent_witness :
    deleteFile ([] : FSState) "/tmp/x" = .ok ([] : FSState) ∧
    ((deleteFile ([] : FSState) "/tmp/x").bind fun s => deleteFile s "/tmp/x")
      = .ok ([] : FSState) :=
  claim9_delete_absent_idempotent [] "/tmp/x" rfl

/-- Witness for C10 at a concrete input: a mixed-capitalization `.IdMl`
file is accepted and found. -/
theorem claim10_case_insensitive_ext_witness :
    isInDesignExt "Doc.IdMl" = true ∧
    findInDesignFile "/x" [.file "Doc.IdMl"] = some (pathJoin "/x" "Doc.IdMl") :=
  claim10_case_insensitive_ext "Doc.IdMl" "/x" [] (Or.inr rfl)

end InDesignProofs
